import Mathlib

/-!
Verification of the DRISHTI viewport transform and annotation-overlay
engine (`src/frontend/components/ImagePanel.tsx`).

The engine is embedded shallowly over `ℚ`: every numeric quantity of the
source (scales, translates, pixel coordinates) is an exact rational, so
all claimed identities can be settled exactly.  Browser-environment
inputs (image natural size, container client rectangle) are collected in
an `Env` record; the mutable React state that the claims are about
(`scale`, `translateX`, `translateY`, plus the pinch bookkeeping) is an
explicit state record threaded through the event handlers.
-/

namespace Drishti

/-- JavaScript `Math.round`: round half toward positive infinity. -/
def jsRound (q : ℚ) : ℤ := ⌊q + 1/2⌋

/-- Browser-environment inputs of the component: the image's natural size and the
canvas client rectangle (`canvas.getBoundingClientRect()`). -/
structure Env where
  imgW : ℚ
  imgH : ℚ
  rectW : ℚ
  rectH : ℚ
deriving DecidableEq

/-- `const rulerMargin = Math.max(60, Math.round(Math.max(naturalWidth, naturalHeight) / 20))`. -/
def Env.margin (e : Env) : ℚ := max 60 ((jsRound (max e.imgW e.imgH / 20) : ℤ) : ℚ)

/-- `canvas.width = img.naturalWidth + rulerMargin * 2`. -/
def Env.canvasW (e : Env) : ℚ := e.imgW + 2 * e.margin

/-- `canvas.height = img.naturalHeight + rulerMargin * 2`. -/
def Env.canvasH (e : Env) : ℚ := e.imgH + 2 * e.margin

/-- `displayScale = Math.min(rect.width / canvas.width, rect.height / canvas.height)`. -/
def Env.displayScale (e : Env) : ℚ := min (e.rectW / e.canvasW) (e.rectH / e.canvasH)

/-- The pan/zoom state `{scale, translateX, translateY}`. -/
structure Transform where
  scale : ℚ
  tx : ℚ
  ty : ℚ
deriving DecidableEq

/-- `constrainPan(newTranslateX, newTranslateY, currentScale)` from
`ImagePanel.tsx`: at `scale === 1` force `(0, 0)`; otherwise per axis
either center the image (when its scaled footprint fits the container)
or clamp the translate between
`(rect − scaled)/displayScale − rulerMargin` and `−rulerMargin`. -/
def constrainPan (e : Env) (tx ty s : ℚ) : ℚ × ℚ :=
  if s = 1 then (0, 0)
  else
    let ds := e.displayScale
    let m := e.margin
    let scaledW := e.imgW * ds * s
    let scaledH := e.imgH * ds * s
    let nx :=
      if scaledW ≤ e.rectW then (e.rectW / ds - e.imgW * s) / 2 - m
      else max ((e.rectW - scaledW) / ds - m) (min (-m) tx)
    let ny :=
      if scaledH ≤ e.rectH then (e.rectH / ds - e.imgH * s) / 2 - m
      else max ((e.rectH - scaledH) / ds - m) (min (-m) ty)
    (nx, ny)

/-- C3: the boundary solver forces `(0,0)` at `scale = 1`; for `scale > 1`
it centers an axis whose scaled footprint fits the container and
otherwise clamps the requested translate into the closed interval
`[(rect − scaled)/displayScale − margin, −margin]`, so the image covers
the container on that axis. -/
theorem constrainPan_centers_or_clamps (e : Env) (tx ty s : ℚ)
    (hds : 0 < e.displayScale) :
    (s = 1 → constrainPan e tx ty s = (0, 0)) ∧
    (1 < s →
      ((e.imgW * e.displayScale * s ≤ e.rectW →
          (constrainPan e tx ty s).1 =
            (e.rectW / e.displayScale - e.imgW * s) / 2 - e.margin) ∧
       (e.rectW < e.imgW * e.displayScale * s →
          (constrainPan e tx ty s).1 =
            max ((e.rectW - e.imgW * e.displayScale * s) / e.displayScale - e.margin)
              (min (-e.margin) tx) ∧
          (e.rectW - e.imgW * e.displayScale * s) / e.displayScale - e.margin ≤
            (constrainPan e tx ty s).1 ∧
          (constrainPan e tx ty s).1 ≤ -e.margin)) ∧
      ((e.imgH * e.displayScale * s ≤ e.rectH →
          (constrainPan e tx ty s).2 =
            (e.rectH / e.displayScale - e.imgH * s) / 2 - e.margin) ∧
       (e.rectH < e.imgH * e.displayScale * s →
          (constrainPan e tx ty s).2 =
            max ((e.rectH - e.imgH * e.displayScale * s) / e.displayScale - e.margin)
              (min (-e.margin) ty) ∧
          (e.rectH - e.imgH * e.displayScale * s) / e.displayScale - e.margin ≤
            (constrainPan e tx ty s).2 ∧
          (constrainPan e tx ty s).2 ≤ -e.margin))) := by
  refine ⟨fun h1 => by simp [constrainPan, h1], fun hs => ?_⟩
  have hne : ¬ s = 1 := ne_of_gt hs
  constructor
  · constructor
    · intro hfit
      simp [constrainPan, hne, hfit]
    · intro hbig
      have hnfit : ¬ e.imgW * e.displayScale * s ≤ e.rectW := not_le.mpr hbig
      have hlo : (e.rectW - e.imgW * e.displayScale * s) / e.displayScale - e.margin ≤
          -e.margin := by
        have hnum : e.rectW - e.imgW * e.displayScale * s < 0 := by linarith
        have := div_nonpos_of_nonpos_of_nonneg (le_of_lt hnum) (le_of_lt hds)
        linarith
      refine ⟨by simp [constrainPan, hne, hnfit], ?_, ?_⟩
      · simp [constrainPan, hne, hnfit]
      · simp only [constrainPan, hne, hnfit, if_false, ite_false]
        have h2 : min (-e.margin) tx ≤ -e.margin := min_le_left _ _
        simpa [constrainPan, hne, hnfit] using max_le hlo h2
  · constructor
    · intro hfit
      simp [constrainPan, hne, hfit]
    · intro hbig
      have hnfit : ¬ e.imgH * e.displayScale * s ≤ e.rectH := not_le.mpr hbig
      have hlo : (e.rectH - e.imgH * e.displayScale * s) / e.displayScale - e.margin ≤
          -e.margin := by
        have hnum : e.rectH - e.imgH * e.displayScale * s < 0 := by linarith
        have := div_nonpos_of_nonpos_of_nonneg (le_of_lt hnum) (le_of_lt hds)
        linarith
      refine ⟨by simp [constrainPan, hne, hnfit], ?_, ?_⟩
      · simp [constrainPan, hne, hnfit]
      · simp only [constrainPan, hne, hnfit, if_false, ite_false]
        have h2 : min (-e.margin) ty ≤ -e.margin := min_le_left _ _
        simpa [constrainPan, hne, hnfit] using max_le hlo h2

/-- Witness for `constrainPan_centers_or_clamps` on a 1000×1000 image in a
560×560 container at scale 2 with a large requested translate. -/
theorem constrainPan_centers_or_clamps_witness :
    (0 : ℚ) < (Env.mk 1000 1000 560 560).displayScale ∧
    (constrainPan (Env.mk 1000 1000 560 560) 500 (-70) 2).1 = -60 ∧
    (constrainPan (Env.mk 1000 1000 560 560) 500 (-70) 2).2 = -70 := by
  have h := constrainPan_centers_or_clamps (Env.mk 1000 1000 560 560) 500 (-70) 2
    (by norm_num [Env.displayScale, Env.canvasW, Env.canvasH, Env.margin, jsRound])
  refine ⟨by norm_num [Env.displayScale, Env.canvasW, Env.canvasH, Env.margin, jsRound], ?_, ?_⟩
  · have hx := ((h.2 (by norm_num)).1).2 (by
      norm_num [Env.displayScale, Env.canvasW, Env.canvasH, Env.margin, jsRound])
    rw [hx.1]
    norm_num [Env.displayScale, Env.canvasW, Env.canvasH, Env.margin, jsRound]
  · have hy := ((h.2 (by norm_num)).2).2 (by
      norm_num [Env.displayScale, Env.canvasW, Env.canvasH, Env.margin, jsRound])
    rw [hy.1]
    norm_num [Env.displayScale, Env.canvasW, Env.canvasH, Env.margin, jsRound]

/-- `mouseToImageCoords`: client point (relative to the canvas client
rect) → image-space point, `((c/displayScale − margin) − translate)/scale`. -/
def clientToImage (e : Env) (t : Transform) (cx cy : ℚ) : ℚ × ℚ :=
  ((cx / e.displayScale - e.margin - t.tx) / t.scale,
   (cy / e.displayScale - e.margin - t.ty) / t.scale)

/-- The draw transform of the render effect
(`ctx.translate(translateX + rulerMargin, …); ctx.scale(scale, scale)`
followed by the CSS scale-to-fit of the canvas): image point → client
point, `((p + margin… ) …) = (translate + margin + p·scale) · displayScale`. -/
def imageToClient (e : Env) (t : Transform) (px py : ℚ) : ℚ × ℚ :=
  ((t.tx + e.margin + px * t.scale) * e.displayScale,
   (t.ty + e.margin + py * t.scale) * e.displayScale)

/-- The composite transform as the specification words it:
`imageToClient(p) = ((p + margin) * scale + translate) * displayFitScale`
(margin applied before scaling).  Stated only for comparison against the
code's draw transform, which applies the margin after scaling. -/
def specImageToClient (e : Env) (t : Transform) (px py : ℚ) : ℚ × ℚ :=
  (((px + e.margin) * t.scale + t.tx) * e.displayScale,
   ((py + e.margin) * t.scale + t.ty) * e.displayScale)

/-- C7 (amended): for every image-space point and every valid transform
state, `clientToImage` is the exact inverse of the code's actual
composite `(translate + margin + p·scale) · displayScale` — the margin
enters after scaling, not before as the specification's formula has it
(exact over ℚ, hence certainly within floating-point tolerance). -/
theorem clientToImage_imageToClient (e : Env) (t : Transform) (px py : ℚ)
    (hs1 : 1 ≤ t.scale) (hs2 : t.scale ≤ 10) (hds : 0 < e.displayScale) :
    clientToImage e t (imageToClient e t px py).1 (imageToClient e t px py).2 =
      (px, py) := by
  have hsne : t.scale ≠ 0 := by positivity
  have hdne : e.displayScale ≠ 0 := ne_of_gt hds
  simp only [clientToImage, imageToClient, Prod.mk.injEq]
  constructor <;> field_simp <;> ring

/-- Witness for `clientToImage_imageToClient`: image point (123, 45) on a
1000×800 image in a 560×460 container at scale 3, translate (−100, −200). -/
theorem clientToImage_imageToClient_witness :
    clientToImage (Env.mk 1000 800 560 460) (Transform.mk 3 (-100) (-200))
        (imageToClient (Env.mk 1000 800 560 460) (Transform.mk 3 (-100) (-200)) 123 45).1
        (imageToClient (Env.mk 1000 800 560 460) (Transform.mk 3 (-100) (-200)) 123 45).2 =
      (123, 45) :=
  clientToImage_imageToClient (Env.mk 1000 800 560 460) (Transform.mk 3 (-100) (-200))
    123 45 (by norm_num) (by norm_num)
    (by norm_num [Env.displayScale, Env.canvasW, Env.canvasH, Env.margin, jsRound])

/-- C7 counterexample: with the composite written as in the specification
(margin scaled by zoom), the round trip through the code's
`mouseToImageCoords` does not return the input point: at scale 2 on a
1000×1000 image the image point 100 comes back as 130, off by
`margin·(1 − 1/scale) = 30` pixels. -/
theorem specComposite_roundTrip_counterexample :
    (clientToImage (Env.mk 1000 1000 560 560) (Transform.mk 2 (-60) (-60))
        (specImageToClient (Env.mk 1000 1000 560 560) (Transform.mk 2 (-60) (-60)) 100 100).1
        (specImageToClient (Env.mk 1000 1000 560 560) (Transform.mk 2 (-60) (-60)) 100 100).2).1 =
      130 ∧ (130 : ℚ) ≠ 100 := by
  constructor
  · norm_num [clientToImage, specImageToClient, Env.displayScale, Env.canvasW, Env.canvasH,
      Env.margin, jsRound]
  · norm_num

/-- The unclamped part of `handleWheel`: the new scale
`Math.min(Math.max(1, scale * zoomFactor), 10)` with
`zoomFactor = deltaY < 0 ? 1.1 : 0.9`, and the focal translate solve
`mouseCanvas − (mouseCanvas − translate) * (newScale / scale)` where
`mouseCanvas = mouseDisplay / displayScale − rulerMargin`. -/
def wheelSolve (e : Env) (t : Transform) (deltaY mouseX mouseY : ℚ) : Transform :=
  let mx := mouseX / e.displayScale - e.margin
  let my := mouseY / e.displayScale - e.margin
  let f : ℚ := if deltaY < 0 then 11/10 else 9/10
  let ns := min (max 1 (t.scale * f)) 10
  let r := ns / t.scale
  ⟨ns, mx - (mx - t.tx) * r, my - (my - t.ty) * r⟩

/-- `handleWheel`: the focal solve followed by `constrainPan`. -/
def wheelUpdate (e : Env) (t : Transform) (deltaY mouseX mouseY : ℚ) : Transform :=
  let u := wheelSolve e t deltaY mouseX mouseY
  let c := constrainPan e u.tx u.ty u.scale
  ⟨u.scale, c.1, c.2⟩

/-- The algebra of the focal solve: dividing out the new scale recovers
the old pointer offset. -/
theorem focalAux (A tx s ns : ℚ) (hs : s ≠ 0) (hns : ns ≠ 0) :
    (A - (A - (A - tx) * (ns / s))) / ns = (A - tx) / s := by
  field_simp
  ring

/-- `getTouchDistance`: 0 when fewer than two touches are present,
otherwise the Euclidean distance between the first two touch points.
`Math.sqrt` is abstracted as a parameter `sqrtQ`. -/
def getTouchDistance (sqrtQ : ℚ → ℚ) (touches : List (ℚ × ℚ)) : ℚ :=
  match touches with
  | t1 :: t2 :: _ => sqrtQ ((t2.1 - t1.1) ^ 2 + (t2.2 - t1.2) ^ 2)
  | _ => 0

/-- Full gesture state: the transform plus the pinch bookkeeping
(`touchStartDistance`, `touchStartScale`). -/
structure MachineState where
  t : Transform
  touchStartDistance : ℚ
  touchStartScale : ℚ
deriving DecidableEq

/-- The unclamped part of the two-finger branch of `handleTouchMove`:
scale `Math.min(Math.max(1, touchStartScale * distance/touchStartDistance), 10)`
and the focal translate solve
`centerCanvas − (centerCanvas − translate) * (newScale / scale)` at the
touch midpoint, with `centerCanvas = centerDisplay / displayScale − rulerMargin`. -/
def pinchSolve (e : Env) (st : MachineState) (dist centerX centerY : ℚ) : Transform :=
  let scaleChange := dist / st.touchStartDistance
  let ns := min (max 1 (st.touchStartScale * scaleChange)) 10
  let cx := centerX / e.displayScale - e.margin
  let cy := centerY / e.displayScale - e.margin
  let r := ns / st.t.scale
  ⟨ns, cx - (cx - st.t.tx) * r, cy - (cy - st.t.ty) * r⟩

/-- The two-finger branch of `handleTouchMove`: guarded by
`touchStartDistance > 0`; the focal solve followed by `constrainPan`.
With the guard false the state is returned unchanged. -/
def touchMovePinch (e : Env) (st : MachineState) (dist centerX centerY : ℚ) :
    MachineState :=
  if 0 < st.touchStartDistance then
    let u := pinchSolve e st dist centerX centerY
    let c := constrainPan e u.tx u.ty u.scale
    ⟨⟨u.scale, c.1, c.2⟩, st.touchStartDistance, st.touchStartScale⟩
  else st

/-- C2 (amended): a wheel zoom computes
`scale' = clamp(scale * (1.1 if deltaY < 0 else 0.9), 1, 10)`, a pinch
move computes `scale' = clamp(touchStartScale * dist/touchStartDistance, 1, 10)`,
and both solve the focal translate
`pointerRS − (pointerRS − translate) · (scale'/scale)` (at the pointer,
resp. the touch midpoint) followed by the boundary clamp; whenever the
boundary clamp returns the solved translate unchanged, the image-space
point under the focal point is exactly unchanged by the zoom. -/
theorem zoom_focal (e : Env) (t : Transform) (deltaY mouseX mouseY : ℚ)
    (st : MachineState) (dist centerX centerY : ℚ)
    (hs : 0 < t.scale) (hds : 0 < e.displayScale)
    (hclampW : constrainPan e (wheelSolve e t deltaY mouseX mouseY).tx
        (wheelSolve e t deltaY mouseX mouseY).ty
        (wheelSolve e t deltaY mouseX mouseY).scale =
      ((wheelSolve e t deltaY mouseX mouseY).tx,
       (wheelSolve e t deltaY mouseX mouseY).ty))
    (hpscale : 0 < st.t.scale) (hbase : 0 < st.touchStartDistance)
    (hclampP : constrainPan e (pinchSolve e st dist centerX centerY).tx
        (pinchSolve e st dist centerX centerY).ty
        (pinchSolve e st dist centerX centerY).scale =
      ((pinchSolve e st dist centerX centerY).tx,
       (pinchSolve e st dist centerX centerY).ty)) :
    (wheelUpdate e t deltaY mouseX mouseY).scale =
      min (max 1 (t.scale * (if deltaY < 0 then 11/10 else 9/10))) 10 ∧
    (wheelSolve e t deltaY mouseX mouseY).tx =
      (mouseX / e.displayScale - e.margin) -
        ((mouseX / e.displayScale - e.margin) - t.tx) *
          ((wheelUpdate e t deltaY mouseX mouseY).scale / t.scale) ∧
    clientToImage e (wheelUpdate e t deltaY mouseX mouseY) mouseX mouseY =
      clientToImage e t mouseX mouseY ∧
    (touchMovePinch e st dist centerX centerY).t.scale =
      min (max 1 (st.touchStartScale * (dist / st.touchStartDistance))) 10 ∧
    (pinchSolve e st dist centerX centerY).tx =
      (centerX / e.displayScale - e.margin) -
        ((centerX / e.displayScale - e.margin) - st.t.tx) *
          ((touchMovePinch e st dist centerX centerY).t.scale / st.t.scale) ∧
    clientToImage e (touchMovePinch e st dist centerX centerY).t centerX centerY =
      clientToImage e st.t centerX centerY := by
  have hupd : wheelUpdate e t deltaY mouseX mouseY = wheelSolve e t deltaY mouseX mouseY := by
    simp only [wheelUpdate, hclampW]
  have hpupd : (touchMovePinch e st dist centerX centerY).t =
      pinchSolve e st dist centerX centerY := by
    simp only [touchMovePinch, if_pos hbase, hclampP]
  have hns : (1 : ℚ) ≤ min (max 1 (t.scale * (if deltaY < 0 then 11/10 else 9/10))) 10 :=
    le_min (le_max_left _ _) (by norm_num)
  have hpns : (1 : ℚ) ≤
      min (max 1 (st.touchStartScale * (dist / st.touchStartDistance))) 10 :=
    le_min (le_max_left _ _) (by norm_num)
  have hsne : t.scale ≠ 0 := ne_of_gt hs
  have hpsne : st.t.scale ≠ 0 := ne_of_gt hpscale
  have hnsne : min (max 1 (t.scale * (if deltaY < 0 then (11:ℚ)/10 else 9/10))) 10 ≠ 0 := by
    intro h0
    rw [h0] at hns
    norm_num at hns
  have hpnsne : min (max 1 (st.touchStartScale * (dist / st.touchStartDistance))) 10 ≠ 0 := by
    intro h0
    rw [h0] at hpns
    norm_num at hpns
  refine ⟨by rw [hupd]; rfl, by rw [hupd]; rfl, ?_, by rw [hpupd]; rfl,
    by rw [hpupd]; rfl, ?_⟩
  · rw [hupd]
    simp only [clientToImage, wheelSolve, Prod.mk.injEq]
    exact ⟨focalAux _ _ _ _ hsne hnsne, focalAux _ _ _ _ hsne hnsne⟩
  · rw [hpupd]
    simp only [clientToImage, pinchSolve, Prod.mk.injEq]
    exact ⟨focalAux _ _ _ _ hpsne hpnsne, focalAux _ _ _ _ hpsne hpnsne⟩

/-- Witness for `zoom_focal`: 1000×1000 image, 560×560 container, scale 2
at translate (−60, −60); a wheel zoom-out with the pointer at the
container's top-left corner, and a pinch zoom-out (baseline distance 100,
current 90, pinch-start scale 2) with the midpoint there too.  Neither
clamp binds and the focal image point (−60, −60) is preserved exactly in
both cases. -/
theorem zoom_focal_witness :
    clientToImage (Env.mk 1000 1000 560 560)
        (wheelUpdate (Env.mk 1000 1000 560 560) (Transform.mk 2 (-60) (-60)) 1 0 0) 0 0 =
      clientToImage (Env.mk 1000 1000 560 560) (Transform.mk 2 (-60) (-60)) 0 0 ∧
    clientToImage (Env.mk 1000 1000 560 560)
        (touchMovePinch (Env.mk 1000 1000 560 560)
          (MachineState.mk (Transform.mk 2 (-60) (-60)) 100 2) 90 0 0).t 0 0 =
      clientToImage (Env.mk 1000 1000 560 560) (Transform.mk 2 (-60) (-60)) 0 0 := by
  have h := zoom_focal (Env.mk 1000 1000 560 560) (Transform.mk 2 (-60) (-60)) 1 0 0
    (MachineState.mk (Transform.mk 2 (-60) (-60)) 100 2) 90 0 0
    (by norm_num)
    (by norm_num [Env.displayScale, Env.canvasW, Env.canvasH, Env.margin, jsRound])
    (by norm_num [constrainPan, wheelSolve, Env.displayScale, Env.canvasW, Env.canvasH,
      Env.margin, jsRound])
    (by norm_num) (by norm_num)
    (by norm_num [constrainPan, pinchSolve, Env.displayScale, Env.canvasW, Env.canvasH,
      Env.margin, jsRound])
  exact ⟨h.2.2.1, h.2.2.2.2.2⟩

/-- C2 counterexample: same environment, scale 2 at translate (−60, −60)
(a legal, fully clamped state), zoom out with the pointer at the
container's bottom-right corner (560, 560).  The boundary clamp moves the
solved translate from 52 back to −60, and the image point under the
pointer jumps from 560 to 6200/9 ≈ 622.2 — a shift of 560/9 ≈ 62 image
pixels, far beyond floating-point tolerance. -/
theorem zoom_focal_counterexample :
    (clientToImage (Env.mk 1000 1000 560 560)
        (wheelUpdate (Env.mk 1000 1000 560 560) (Transform.mk 2 (-60) (-60)) 1 560 560)
        560 560).1 -
      (clientToImage (Env.mk 1000 1000 560 560) (Transform.mk 2 (-60) (-60)) 560 560).1 =
      560 / 9 ∧ (62 : ℚ) < 560 / 9 := by
  constructor
  · norm_num [clientToImage, wheelUpdate, wheelSolve, constrainPan,
      Env.displayScale, Env.canvasW, Env.canvasH, Env.margin, jsRound]
  · norm_num


/-- C10: the pinch ratio `distance / touchStartDistance` is only used
under the guard `touchStartDistance > 0`, so a two-finger move arriving
with an unset baseline leaves the whole state (transform included)
unchanged; and `getTouchDistance` returns 0 whenever fewer than two
touches are present. -/
theorem touchMovePinch_zero_guard (e : Env) (st : MachineState)
    (dist centerX centerY : ℚ) (sqrtQ : ℚ → ℚ) (p : ℚ × ℚ)
    (hzero : st.touchStartDistance ≤ 0) :
    touchMovePinch e st dist centerX centerY = st ∧
    getTouchDistance sqrtQ [] = 0 ∧
    getTouchDistance sqrtQ [p] = 0 := by
  refine ⟨?_, rfl, rfl⟩
  have : ¬ 0 < st.touchStartDistance := not_lt.mpr hzero
  simp [touchMovePinch, this]

/-- Witness for `touchMovePinch_zero_guard`: fresh state (baseline 0),
two-finger move at distance 50 — nothing changes. -/
theorem touchMovePinch_zero_guard_witness :
    touchMovePinch (Env.mk 1000 1000 560 560)
        (MachineState.mk (Transform.mk 2 (-80) (-90)) 0 1) 50 100 100 =
      MachineState.mk (Transform.mk 2 (-80) (-90)) 0 1 ∧
    getTouchDistance (fun q => q) [] = 0 ∧
    getTouchDistance (fun q => q) [(3, 4)] = 0 :=
  touchMovePinch_zero_guard (Env.mk 1000 1000 560 560)
    (MachineState.mk (Transform.mk 2 (-80) (-90)) 0 1) 50 100 100
    (fun q => q) (3, 4) le_rfl

/-- Axis-aligned bounds of a point set, as accumulated by the auto-zoom
effect's `forEach` min/max loop. -/
structure Bounds where
  minX : ℚ
  minY : ℚ
  maxX : ℚ
  maxY : ℚ
deriving DecidableEq

/-- One step of the min/max accumulation over polygon vertices. -/
def Bounds.add (b : Bounds) (q : ℚ × ℚ) : Bounds :=
  ⟨min b.minX q.1, min b.minY q.2, max b.maxX q.1, max b.maxY q.2⟩

/-- Bounds of a non-empty vertex list (head plus the rest). -/
def boundsOf (p : ℚ × ℚ) (ps : List (ℚ × ℚ)) : Bounds :=
  ps.foldl Bounds.add ⟨p.1, p.2, p.1, p.2⟩

/-- Padding by `Math.max(boxWidth, boxHeight) * 1.2` on all sides,
clipped to the image bounds. -/
def paddedBounds (e : Env) (b : Bounds) : Bounds :=
  let padding := max (b.maxX - b.minX) (b.maxY - b.minY) * (6/5)
  ⟨max 0 (b.minX - padding), max 0 (b.minY - padding),
   min e.imgW (b.maxX + padding), min e.imgH (b.maxY + padding)⟩

/-- The auto-zoom effect's display scale: it divides the container rect
by the image's natural size (not by the margin-padded canvas size, as
`constrainPan` and the gesture handlers do). -/
def dsImg (e : Env) : ℚ := min (e.rectW / e.imgW) (e.rectH / e.imgH)

/-- Padded width in image pixels. -/
def paddedW (e : Env) (p : ℚ × ℚ) (ps : List (ℚ × ℚ)) : ℚ :=
  (paddedBounds e (boundsOf p ps)).maxX - (paddedBounds e (boundsOf p ps)).minX

/-- Padded height in image pixels. -/
def paddedH (e : Env) (p : ℚ × ℚ) (ps : List (ℚ × ℚ)) : ℚ :=
  (paddedBounds e (boundsOf p ps)).maxY - (paddedBounds e (boundsOf p ps)).minY

/-- Center of the padded box, x coordinate. -/
def paddedCenterX (e : Env) (p : ℚ × ℚ) (ps : List (ℚ × ℚ)) : ℚ :=
  ((paddedBounds e (boundsOf p ps)).minX + (paddedBounds e (boundsOf p ps)).maxX) / 2

/-- Center of the padded box, y coordinate. -/
def paddedCenterY (e : Env) (p : ℚ × ℚ) (ps : List (ℚ × ℚ)) : ℚ :=
  ((paddedBounds e (boundsOf p ps)).minY + (paddedBounds e (boundsOf p ps)).maxY) / 2

/-- The auto-zoom scale:
`clamp(min(rectW*0.45/paddedWidthDisplay, rectH*0.45/paddedHeightDisplay), 1.2, 6)`. -/
def fitScale (e : Env) (p : ℚ × ℚ) (ps : List (ℚ × ℚ)) : ℚ :=
  max (6/5) (min (min (e.rectW * (9/20) / (paddedW e p ps * dsImg e))
    (e.rectH * (9/20) / (paddedH e p ps * dsImg e))) 6)

/-- Auto-zoom transform from a non-empty vertex list:
`translate = (rect/2)/displayScale − paddedCenter·scale`, with no
`constrainPan` pass. -/
def fitFrom (e : Env) (p : ℚ × ℚ) (ps : List (ℚ × ℚ)) : Transform :=
  ⟨fitScale e p ps,
   e.rectW / 2 / dsImg e - paddedCenterX e p ps * fitScale e p ps,
   e.rectH / 2 / dsImg e - paddedCenterY e p ps * fitScale e p ps⟩

/-- The auto-zoom effect: no-op with no detections, `{1,0,0}` when a
localization mask is present, otherwise `fitFrom` over the union of all
polygon vertices. -/
def autoFit (e : Env) (boxes : List (List (ℚ × ℚ))) (maskPresent : Bool) :
    Option Transform :=
  if boxes.isEmpty then none
  else if maskPresent then some ⟨1, 0, 0⟩
  else
    match boxes.flatten with
    | [] => none
    | p :: ps => some (fitFrom e p ps)

/-- C4 (amended): with detections present and no mask, the auto-zoom
sets `scale = clamp(min(rectW·0.45/paddedWDisplay, rectH·0.45/paddedHDisplay), 1.2, 6)`
and sets the translate directly to
`(rect/2)/displayScaleImg − paddedCenter·scale` — it is NOT passed
through the boundary solver.  When both the image and the container are
square (the one case in which the auto-zoom's image-based fit factor and
the renderer's canvas-based one cancel), the padded box's center still
lands exactly on the container's center under the code's actual draw
transform. -/
theorem autoFit_direct_and_centering (e : Env) (boxes : List (List (ℚ × ℚ)))
    (p : ℚ × ℚ) (ps : List (ℚ × ℚ)) (r : Transform)
    (hjoin : boxes.flatten = p :: ps)
    (hfit : autoFit e boxes false = some r)
    (him : 0 < e.imgW) (hrw : 0 < e.rectW)
    (hsq1 : e.imgH = e.imgW) (hsq2 : e.rectH = e.rectW) :
    r = fitFrom e p ps ∧
    r.scale = fitScale e p ps ∧
    imageToClient e r (paddedCenterX e p ps) (paddedCenterY e p ps) =
      (e.rectW / 2, e.rectH / 2) := by
  have hbne : boxes.isEmpty = false := by
    cases boxes with
    | nil => simp at hjoin
    | cons a l => rfl
  have hfit2 : fitFrom e p ps = r := by
    simpa [autoFit, hbne, hjoin] using hfit
  subst hfit2
  refine ⟨rfl, rfl, ?_⟩
  have hm60 : (60 : ℚ) ≤ e.margin := le_max_left _ _
  have himne : e.imgW ≠ 0 := ne_of_gt him
  have hrwne : e.rectW ≠ 0 := ne_of_gt hrw
  have hcanne : e.imgW + 2 * e.margin ≠ 0 := ne_of_gt (by linarith)
  have hcc : e.canvasH = e.canvasW := by rw [Env.canvasH, Env.canvasW, hsq1]
  have hds : e.displayScale = e.rectW / e.canvasW := by
    rw [Env.displayScale, hcc, hsq2, min_self]
  have hdsImg : dsImg e = e.rectW / e.imgW := by
    rw [dsImg, hsq1, hsq2, min_self]
  simp only [imageToClient, fitFrom, hsq2, hds, hdsImg, Env.canvasW, Prod.mk.injEq]
  constructor <;> · field_simp; ring

/-- Witness for `autoFit_direct_and_centering`: the specification's own
concrete scenario — 1000×1000 image, 560×560 container, square detection
`[[100,100],[300,100],[300,300],[100,300]]`; the padded box center (270,270)
lands exactly at the container center (280, 280). -/
theorem autoFit_direct_and_centering_witness :
    imageToClient (Env.mk 1000 1000 560 560)
        (fitFrom (Env.mk 1000 1000 560 560) (100, 100) [(300, 100), (300, 300), (100, 300)])
        (paddedCenterX (Env.mk 1000 1000 560 560) (100, 100) [(300, 100), (300, 300), (100, 300)])
        (paddedCenterY (Env.mk 1000 1000 560 560) (100, 100) [(300, 100), (300, 300), (100, 300)]) =
      (280, 280) := by
  have h := autoFit_direct_and_centering (Env.mk 1000 1000 560 560)
    [[(100, 100), (300, 100), (300, 300), (100, 300)]]
    (100, 100) [(300, 100), (300, 300), (100, 300)]
    (fitFrom (Env.mk 1000 1000 560 560) (100, 100) [(300, 100), (300, 300), (100, 300)])
    (by simp) (by simp [autoFit]) (by norm_num) (by norm_num) rfl rfl
  rw [h.2.2]
  norm_num [Prod.ext_iff]

/-- C4 counterexample: a small detection near the image corner.  The
auto-zoom sets translate (404, 404) at scale 6, but the boundary solver
maps (404, 404) to (−60, −60) at that scale — so the translate was not
passed through the boundary solver (it even lies outside the solver's
legal range `[−4940, −60]`).  And in the specification's own concrete
scenario (square detection 100..300 on a 1000×1000 image, 560×560
container) the detection bounding-box center (200, 200) is projected to
client 238, not the container center 280 — 42 pixels off, because the
code centers the clipped padded box's center (270, 270) instead.
Even the padded center misses once the image is not square: with the same
detection on a 1000×800 image in a 700×560 container (container aspect
exactly matching the image) the padded center is projected to x = 7840/23
≈ 340.9, not the container center 350, because the auto-zoom's fit factor
divides by the image size while the renderer's divides by the
margin-padded canvas size, and these only cancel for a square image. -/
theorem autoFit_no_clamp_counterexample :
    autoFit (Env.mk 1000 1000 560 560) [[(10, 10), (20, 20)]] false =
      some (Transform.mk 6 404 404) ∧
    constrainPan (Env.mk 1000 1000 560 560) 404 404 6 = (-60, -60) ∧
    (404 : ℚ) ≠ -60 ∧
    (imageToClient (Env.mk 1000 1000 560 560)
        (fitFrom (Env.mk 1000 1000 560 560) (100, 100) [(300, 100), (300, 300), (100, 300)])
        200 200).1 = 238 ∧
    (238 : ℚ) ≠ 280 ∧
    (imageToClient (Env.mk 1000 800 700 560)
        (fitFrom (Env.mk 1000 800 700 560) (100, 100) [(300, 100), (300, 300), (100, 300)])
        (paddedCenterX (Env.mk 1000 800 700 560) (100, 100) [(300, 100), (300, 300), (100, 300)])
        (paddedCenterY (Env.mk 1000 800 700 560) (100, 100)
          [(300, 100), (300, 300), (100, 300)])).1 = 7840 / 23 ∧
    (7840 / 23 : ℚ) ≠ 350 := by
  refine ⟨?_, ?_, by norm_num, ?_, by norm_num, ?_, by norm_num⟩
  · norm_num [autoFit, fitFrom, fitScale, paddedW, paddedH, paddedCenterX, paddedCenterY,
      paddedBounds, boundsOf, Bounds.add, dsImg, Transform.mk.injEq]
  · norm_num [constrainPan, Env.displayScale, Env.canvasW, Env.canvasH, Env.margin, jsRound]
  · norm_num [imageToClient, fitFrom, fitScale, paddedW, paddedH, paddedCenterX, paddedCenterY,
      paddedBounds, boundsOf, Bounds.add, dsImg, Env.displayScale, Env.canvasW, Env.canvasH,
      Env.margin, jsRound]
  · norm_num [imageToClient, fitFrom, fitScale, paddedW, paddedH, paddedCenterX, paddedCenterY,
      paddedBounds, boundsOf, Bounds.add, dsImg, Env.displayScale, Env.canvasW, Env.canvasH,
      Env.margin, jsRound]

/-- The input events that can update the transform state: wheel zoom,
pinch start/move/end, the zoom-in / zoom-out buttons, arrival of a new
detection set (auto-zoom), the reset button, and a new image load. -/
inductive Ev where
  | wheel (deltaY mouseX mouseY : ℚ)
  | pinchStart (dist : ℚ)
  | pinchMove (dist centerX centerY : ℚ)
  | touchEnd
  | zoomIn
  | zoomOut
  | detections (boxes : List (List (ℚ × ℚ))) (maskPresent : Bool)
  | resetView
  | newImage

/-- Initial state: `{scale:1, translateX:0, translateY:0}`, pinch baseline
unset. -/
def initState : MachineState := ⟨⟨1, 0, 0⟩, 0, 1⟩

/-- One event of the gesture controller / auto-zoom, as the component's
handlers implement it. -/
def step (e : Env) (s : MachineState) : Ev → MachineState
  | .wheel d mx my => ⟨wheelUpdate e s.t d mx my, s.touchStartDistance, s.touchStartScale⟩
  | .pinchStart dist => ⟨s.t, dist, s.t.scale⟩
  | .pinchMove dist cx cy => touchMovePinch e s dist cx cy
  | .touchEnd => ⟨s.t, 0, 1⟩
  | .zoomIn =>
      let ns := min (s.t.scale * (6/5)) 10
      let c := constrainPan e s.t.tx s.t.ty ns
      ⟨⟨ns, c.1, c.2⟩, s.touchStartDistance, s.touchStartScale⟩
  | .zoomOut =>
      let ns := max (s.t.scale / (6/5)) 1
      let c := constrainPan e s.t.tx s.t.ty ns
      ⟨⟨ns, c.1, c.2⟩, s.touchStartDistance, s.touchStartScale⟩
  | .detections boxes mask =>
      match autoFit e boxes mask with
      | some t => ⟨t, s.touchStartDistance, s.touchStartScale⟩
      | none => s
  | .resetView => ⟨⟨1, 0, 0⟩, s.touchStartDistance, s.touchStartScale⟩
  | .newImage => ⟨⟨1, 0, 0⟩, s.touchStartDistance, s.touchStartScale⟩

/-- Run a sequence of events from the initial state. -/
def run (e : Env) (evs : List Ev) : MachineState := evs.foldl (step e) initState

/-- The auto-zoom scale is clamped into `[1.2, 6] ⊆ [1, 10]`. -/
theorem fitScale_bounds (e : Env) (p : ℚ × ℚ) (ps : List (ℚ × ℚ)) :
    1 ≤ fitScale e p ps ∧ fitScale e p ps ≤ 10 := by
  unfold fitScale
  constructor
  · exact le_trans (by norm_num) (le_max_left _ _)
  · exact max_le (by norm_num) (le_trans (min_le_right _ _) (by norm_num))

/-- Any transform the auto-zoom produces has scale in `[1, 10]`. -/
theorem autoFit_scale_bounds (e : Env) (boxes : List (List (ℚ × ℚ)))
    (mask : Bool) (t : Transform) (h : autoFit e boxes mask = some t) :
    1 ≤ t.scale ∧ t.scale ≤ 10 := by
  unfold autoFit at h
  by_cases h1 : boxes.isEmpty = true
  · rw [if_pos h1] at h
    exact absurd h (by simp)
  · rw [if_neg h1] at h
    by_cases h2 : mask = true
    · rw [if_pos h2] at h
      have ht : t = ⟨1, 0, 0⟩ := (Option.some.inj h).symm
      rw [ht]
      norm_num
    · rw [if_neg h2] at h
      rcases hj : boxes.flatten with _ | ⟨p, ps⟩ <;> rw [hj] at h
      · exact absurd h (by simp)
      · have ht : t = fitFrom e p ps := (Option.some.inj h).symm
        rw [ht]
        exact fitScale_bounds e p ps

/-- A single event preserves `1 ≤ scale ≤ 10`. -/
theorem scale_bounds_step (e : Env) (s : MachineState) (ev : Ev)
    (h1 : 1 ≤ s.t.scale) (h2 : s.t.scale ≤ 10) :
    1 ≤ (step e s ev).t.scale ∧ (step e s ev).t.scale ≤ 10 := by
  cases ev with
  | wheel d mx my =>
      refine ⟨?_, ?_⟩ <;> simp only [step, wheelUpdate, wheelSolve]
      · exact le_min (le_max_left _ _) (by norm_num)
      · exact min_le_right _ _
  | pinchStart dist => exact ⟨h1, h2⟩
  | pinchMove dist cx cy =>
      simp only [step, touchMovePinch, pinchSolve]
      split_ifs with hpos
      · refine ⟨?_, ?_⟩
        · exact le_min (le_max_left _ _) (by norm_num)
        · exact min_le_right _ _
      · exact ⟨h1, h2⟩
  | touchEnd => exact ⟨h1, h2⟩
  | zoomIn =>
      refine ⟨?_, ?_⟩ <;> simp only [step]
      · exact le_min (by nlinarith) (by norm_num)
      · exact min_le_right _ _
  | zoomOut =>
      refine ⟨?_, ?_⟩ <;> simp only [step]
      · exact le_max_right _ _
      · refine max_le ?_ (by norm_num)
        nlinarith
  | detections boxes mask =>
      simp only [step]
      rcases hauto : autoFit e boxes mask with _ | t
      · exact ⟨h1, h2⟩
      · exact autoFit_scale_bounds e boxes mask t hauto
  | resetView => norm_num [step]
  | newImage => norm_num [step]

/-- C1: starting from the initial transform `{scale: 1}`, after every
sequence of zoom updates (wheel, pinch, zoom buttons, auto-fit, reset,
image load) the scale satisfies `1 ≤ scale ≤ 10` — and since every list
of events is quantified, the bound holds after every intermediate update
as well. -/
theorem scale_bounds_all_events (e : Env) (evs : List Ev) :
    1 ≤ (run e evs).t.scale ∧ (run e evs).t.scale ≤ 10 := by
  suffices h : ∀ s : MachineState, 1 ≤ s.t.scale → s.t.scale ≤ 10 →
      1 ≤ (evs.foldl (step e) s).t.scale ∧ (evs.foldl (step e) s).t.scale ≤ 10 by
    exact h initState (by norm_num [initState]) (by norm_num [initState])
  induction evs with
  | nil => exact fun s hs1 hs2 => ⟨hs1, hs2⟩
  | cons ev rest ih =>
      intro s hs1 hs2
      have hstep := scale_bounds_step e s ev hs1 hs2
      exact ih _ hstep.1 hstep.2

/-- An axis-aligned rectangle `{x, y, width, height}` in image space. -/
structure Rect where
  x : ℚ
  y : ℚ
  width : ℚ
  height : ℚ
deriving DecidableEq

/-- The region-drawing recomputation of `handleMouseMove` /
`handleTouchMove`: origin clamped to ≥ 0, size truncated into the image
(`x = max(0, min(ax, cx))`, `w = min(imgW − x, |cx − ax|)`). -/
def computeRegion (imgW imgH ax ay cx cy : ℚ) : Rect :=
  ⟨max 0 (min ax cx), max 0 (min ay cy),
   min (imgW - max 0 (min ax cx)) |cx - ax|,
   min (imgH - max 0 (min ay cy)) |cy - ay|⟩

/-- The candidate rectangle as the specification words it: the normalized
rectangle `{min, min, |dx|, |dy|}` geometrically clipped (intersected)
with the image bounds `[0, imgW] × [0, imgH]`.  Stated only for
comparison with `computeRegion`. -/
def specRegionClip (imgW imgH ax ay cx cy : ℚ) : Rect :=
  let x0 := min imgW (max 0 (min ax cx))
  let x1 := min imgW (max 0 (max ax cx))
  let y0 := min imgH (max 0 (min ay cy))
  let y1 := min imgH (max 0 (max ay cy))
  ⟨x0, y0, x1 - x0, y1 - y0⟩

/-- C5 (amended): whenever the anchor and the current pointer both lie
within the image bounds, the drawn candidate rectangle is exactly the
normalized rectangle `{min, min, |dx|, |dy|}` and coincides with its clip
to the image bounds (the clip is a no-op there). -/
theorem computeRegion_normalized (imgW imgH ax ay cx cy : ℚ)
    (hax : 0 ≤ ax) (hax2 : ax ≤ imgW) (hay : 0 ≤ ay) (hay2 : ay ≤ imgH)
    (hcx : 0 ≤ cx) (hcx2 : cx ≤ imgW) (hcy : 0 ≤ cy) (hcy2 : cy ≤ imgH) :
    computeRegion imgW imgH ax ay cx cy =
      ⟨min ax cx, min ay cy, |cx - ax|, |cy - ay|⟩ ∧
    computeRegion imgW imgH ax ay cx cy = specRegionClip imgW imgH ax ay cx cy := by
  have hx0 : max 0 (min ax cx) = min ax cx := max_eq_right (le_min hax hcx)
  have hy0 : max 0 (min ay cy) = min ay cy := max_eq_right (le_min hay hcy)
  have hx1 : max 0 (max ax cx) = max ax cx := max_eq_right (le_trans hax (le_max_left _ _))
  have hy1 : max 0 (max ay cy) = max ay cy := max_eq_right (le_trans hay (le_max_left _ _))
  have hxw : |cx - ax| ≤ imgW - min ax cx := by
    rcases abs_cases (cx - ax) with ⟨habs, _⟩ | ⟨habs, _⟩ <;>
      · rw [habs]
        rcases min_cases ax cx with ⟨hmin, _⟩ | ⟨hmin, _⟩ <;> rw [hmin] <;> linarith
  have hyh : |cy - ay| ≤ imgH - min ay cy := by
    rcases abs_cases (cy - ay) with ⟨habs, _⟩ | ⟨habs, _⟩ <;>
      · rw [habs]
        rcases min_cases ay cy with ⟨hmin, _⟩ | ⟨hmin, _⟩ <;> rw [hmin] <;> linarith
  have hminw : min (imgW - min ax cx) |cx - ax| = |cx - ax| := min_eq_right hxw
  have hminh : min (imgH - min ay cy) |cy - ay| = |cy - ay| := min_eq_right hyh
  have hmaxmin : ∀ a c : ℚ, max a c - min a c = |c - a| := by
    intro a c
    rcases le_total a c with hle | hle
    · rw [max_eq_right hle, min_eq_left hle, abs_of_nonneg (by linarith)]
    · rw [max_eq_left hle, min_eq_right hle, abs_of_nonpos (by linarith)]
      ring
  constructor
  · simp only [computeRegion, hx0, hy0, hminw, hminh]
  · simp only [computeRegion, specRegionClip, hx0, hy0, hx1, hy1, hminw, hminh,
      min_eq_right (le_trans (min_le_left ax cx) hax2),
      min_eq_right (le_trans (min_le_left ay cy) hay2),
      min_eq_right (max_le hax2 hcx2), min_eq_right (max_le hay2 hcy2)]
    rw [hmaxmin ax cx, hmaxmin ay cy]

/-- Witness for `computeRegion_normalized`: the specification's concrete
reverse-direction drag from (50,50) to (40,30) on a 1000×800 image,
yielding the normalized rectangle {40, 30, 10, 20}. -/
theorem computeRegion_normalized_witness :
    computeRegion 1000 800 50 50 40 30 = ⟨40, 30, 10, 20⟩ ∧
    computeRegion 1000 800 50 50 40 30 = specRegionClip 1000 800 50 50 40 30 := by
  have h := computeRegion_normalized 1000 800 50 50 40 30
    (by norm_num) (by norm_num) (by norm_num) (by norm_num)
    (by norm_num) (by norm_num) (by norm_num) (by norm_num)
  refine ⟨?_, h.2⟩
  rw [h.1]
  norm_num [Rect.mk.injEq, abs_of_nonpos]

/-- C5 counterexample: with the current pointer outside the image bounds
(anchor (30,30), pointer (−20,−20) on a 1000×1000 image) the code
produces {0, 0, 50, 50} — it keeps the full 50-pixel drag span — whereas
the normalized rectangle clipped to the image bounds is {0, 0, 30, 30}. -/
theorem computeRegion_clip_counterexample :
    computeRegion 1000 1000 30 30 (-20) (-20) = ⟨0, 0, 50, 50⟩ ∧
    specRegionClip 1000 1000 30 30 (-20) (-20) = ⟨0, 0, 30, 30⟩ ∧
    computeRegion 1000 1000 30 30 (-20) (-20) ≠
      specRegionClip 1000 1000 30 30 (-20) (-20) := by
  refine ⟨?_, ?_, ?_⟩ <;>
    norm_num [computeRegion, specRegionClip, Rect.mk.injEq, abs_of_nonpos]

/-- The component state that `handleMouseUp` / `handleTouchEnd` touches:
the drawing flag, the in-progress draft rectangle, region mode, the
parent-committed selection (the value `onRegionSelect` reports), and the
panning flag. -/
structure RegionState where
  isDrawingRegion : Bool
  isRegionSelectMode : Bool
  currentRegion : Option Rect
  regionSelection : Option Rect
  isPanning : Bool
deriving DecidableEq

/-- `handleMouseUp` (and the all-touches-released branch of
`handleTouchEnd`): if a region draw is being finished, commit the draft
via `onRegionSelect` only when both dimensions are ≥ 10 image pixels,
otherwise discard the draft; in all other cases just stop panning. -/
def handleMouseUp (s : RegionState) : RegionState :=
  match s.isDrawingRegion, s.currentRegion, s.isRegionSelectMode with
  | true, some r, true =>
      if 10 ≤ r.width ∧ 10 ≤ r.height then
        { s with regionSelection := some r, isDrawingRegion := false }
      else
        { s with currentRegion := none, isDrawingRegion := false }
  | _, _, _ => { s with isPanning := false }

/-- C6: on release of a region draw (drawing flag set, draft present,
region mode on, previous selection already cleared at drag start), the
draft is committed if and only if both its width and its height are
≥ 10 image pixels; otherwise both the draft and the reported selection
are null. -/
theorem handleMouseUp_commit_iff (s : RegionState) (r : Rect)
    (hd : s.isDrawingRegion = true) (hc : s.currentRegion = some r)
    (hm : s.isRegionSelectMode = true) (hprev : s.regionSelection = none) :
    ((handleMouseUp s).regionSelection = some r ↔ 10 ≤ r.width ∧ 10 ≤ r.height) ∧
    (¬ (10 ≤ r.width ∧ 10 ≤ r.height) →
      (handleMouseUp s).regionSelection = none ∧
      (handleMouseUp s).currentRegion = none) ∧
    (handleMouseUp s).isDrawingRegion = false := by
  by_cases hok : 10 ≤ r.width ∧ 10 ≤ r.height
  · refine ⟨⟨fun _ => hok, fun _ => ?_⟩, fun hn => absurd hok hn, ?_⟩ <;>
      simp [handleMouseUp, hd, hc, hm, hok]
  · refine ⟨⟨fun hsome => ?_, fun h => absurd h hok⟩, fun _ => ?_, ?_⟩
    · rw [show handleMouseUp s = { s with currentRegion := none, isDrawingRegion := false } by
        simp [handleMouseUp, hd, hc, hm, hok]] at hsome
      simp only at hsome
      rw [hprev] at hsome
      exact absurd hsome (by simp)
    · constructor <;> simp [handleMouseUp, hd, hc, hm, hok, hprev]
    · simp [handleMouseUp, hd, hc, hm, hok]

/-- Witness for `handleMouseUp_commit_iff`: a 15×15 draft commits, and a
draft with width 9 is discarded, leaving both the draft and the reported
selection null. -/
theorem handleMouseUp_commit_iff_witness :
    (handleMouseUp (RegionState.mk true true (some (Rect.mk 40 30 15 15)) none false)).regionSelection =
      some (Rect.mk 40 30 15 15) ∧
    (handleMouseUp (RegionState.mk true true (some (Rect.mk 40 30 9 15)) none false)).regionSelection =
      none ∧
    (handleMouseUp (RegionState.mk true true (some (Rect.mk 40 30 9 15)) none false)).currentRegion =
      none := by
  have hbig := handleMouseUp_commit_iff
    (RegionState.mk true true (some (Rect.mk 40 30 15 15)) none false)
    (Rect.mk 40 30 15 15) rfl rfl rfl rfl
  have hsmall := handleMouseUp_commit_iff
    (RegionState.mk true true (some (Rect.mk 40 30 9 15)) none false)
    (Rect.mk 40 30 9 15) rfl rfl rfl rfl
  have hdisc := hsmall.2.1 (by norm_num)
  exact ⟨hbig.1.mpr (by norm_num), hdisc.1, hdisc.2⟩

/-- State of the selection-blink loop: current fill opacity, the selected
object id (as the parent sees it through `onObjectSelect`), and whether
an animation frame is pending. -/
structure BlinkSt where
  opacity : ℚ
  selection : Option String
  pending : Bool
deriving DecidableEq

/-- One `animate()` callback of the blink effect, at a given elapsed time
(ms): past `blinkDuration * totalBlinks = 400·10` it resets the opacity
to 0.4, fires `onObjectSelect(null)` and schedules nothing; before that
it sets `0.35 + sin(elapsed/400)·0.15` and schedules the next frame.  A
tick with no pending frame is a no-op (a cancelled loop never runs).
`Math.sin` is abstracted as the parameter `sinQ`. -/
def blinkTick (sinQ : ℚ → ℚ) (st : BlinkSt) (elapsed : ℚ) : BlinkSt :=
  if st.pending then
    if 400 * 10 ≤ elapsed then ⟨2/5, none, false⟩
    else ⟨35/100 + sinQ (elapsed / 400) * (15/100), st.selection, true⟩
  else st

/-- The blink effect's cleanup (`cancelAnimationFrame`): the pending
frame, if any, is cancelled; nothing else changes. -/
def blinkCancel (st : BlinkSt) : BlinkSt := ⟨st.opacity, st.selection, false⟩

/-- C8: the blink loop is self-terminating — once elapsed time reaches
10 cycles × 400 ms the callback resets the opacity to 0.4, clears the
selection and schedules no further frame; before that the opacity
follows `0.35 + 0.15·sin(elapsed/400)` and a next frame is scheduled;
cleanup cancels the pending frame, and a loop with no pending frame
never changes state again (no leaked loop). -/
theorem blinkTick_terminates (sinQ : ℚ → ℚ) (o elapsed : ℚ)
    (sel : Option String) (st : BlinkSt) :
    (400 * 10 ≤ elapsed →
      blinkTick sinQ ⟨o, sel, true⟩ elapsed = ⟨2/5, none, false⟩) ∧
    (elapsed < 400 * 10 →
      blinkTick sinQ ⟨o, sel, true⟩ elapsed =
        ⟨35/100 + sinQ (elapsed / 400) * (15/100), sel, true⟩) ∧
    (blinkCancel st).pending = false ∧
    (∀ ts : List ℚ, ts.foldl (blinkTick sinQ) ⟨o, sel, false⟩ = ⟨o, sel, false⟩) := by
  refine ⟨fun hle => by simp [blinkTick, hle], fun hlt => ?_, rfl, fun ts => ?_⟩
  · simp [blinkTick, not_le.mpr hlt]
  · induction ts with
    | nil => rfl
    | cons x xs ih => simpa [blinkTick] using ih

/-- Witness for `blinkTick_terminates`: at elapsed 4000 ms the loop stops
with opacity 0.4 and the selection cleared; at elapsed 200 ms (with `sinQ`
instantiated to the identity) the opacity is 0.35 + 0.5·0.15 = 0.425 and
the loop continues. -/
theorem blinkTick_terminates_witness :
    blinkTick (fun q => q) (BlinkSt.mk (2/5) (some "car") true) 4000 =
      BlinkSt.mk (2/5) none false ∧
    blinkTick (fun q => q) (BlinkSt.mk (2/5) (some "car") true) 200 =
      BlinkSt.mk (17/40) (some "car") true := by
  have h := blinkTick_terminates (fun q => q) (2/5) 4000 (some "car")
    (BlinkSt.mk (2/5) (some "car") true)
  have h2 := blinkTick_terminates (fun q => q) (2/5) 200 (some "car")
    (BlinkSt.mk (2/5) (some "car") true)
  refine ⟨?_, ?_⟩
  · rw [h.1 (by norm_num)]
  · rw [h2.2.1 (by norm_num)]
    norm_num [BlinkSt.mk.injEq]

/-- A detection box as the component receives it: an object id and a
vertex list in image pixels. -/
structure BoundingBox where
  object_id : String
  coordinates : List (ℚ × ℚ)
deriving DecidableEq

/-- The fixed ten-color palette (stroke, fill, label) shared by the live
renderer and the export renderer. -/
def pastelColors : List (String × String × String) :=
  [("#60a5fa", "rgba(96, 165, 250, 0.3)", "#3b82f6"),
   ("#34d399", "rgba(52, 211, 153, 0.3)", "#10b981"),
   ("#f59e0b", "rgba(245, 158, 11, 0.3)", "#d97706"),
   ("#ec4899", "rgba(236, 72, 153, 0.3)", "#db2777"),
   ("#8b5cf6", "rgba(139, 92, 246, 0.3)", "#7c3aed"),
   ("#06b6d4", "rgba(6, 182, 212, 0.3)", "#0891b2"),
   ("#f97316", "rgba(249, 115, 22, 0.3)", "#ea580c"),
   ("#14b8a6", "rgba(20, 184, 166, 0.3)", "#0d9488"),
   ("#a855f7", "rgba(168, 85, 247, 0.3)", "#9333ea"),
   ("#ef4444", "rgba(239, 68, 68, 0.3)", "#dc2626")]

/-- `getObjectColor(index)`: index into the palette modulo its length. -/
def getObjectColor (i : ℕ) : String × String × String :=
  pastelColors.getD (i % pastelColors.length) ("", "", "")

/-- Centroid abscissa of a vertex list (`reduce` sum over length). -/
def centroidX (coords : List (ℚ × ℚ)) : ℚ :=
  (coords.foldl (fun a q => a + q.1) 0) / coords.length

/-- Centroid ordinate of a vertex list. -/
def centroidY (coords : List (ℚ × ℚ)) : ℚ :=
  (coords.foldl (fun a q => a + q.2) 0) / coords.length

/-- The drawing commands the export renderer issues on its fresh canvas. -/
inductive DrawCmd where
  | image (w h : ℚ)
  | poly (coords : List (ℚ × ℚ)) (stroke : String) (lineWidth : ℚ)
  | labelBox (x y w h : ℚ) (color : String)
  | labelText (txt : String) (x y : ℚ) (color : String)
deriving DecidableEq

/-- The export commands for one detection box: skipped when it has fewer
than 2 vertices; otherwise a 3-px stroke in the palette color and a
fixed-size (14 px font, padding 6) label at the centroid.  Text metrics
are abstracted as `textWidth`. -/
def exportBoxCmds (textWidth : String → ℚ) (i : ℕ) (b : BoundingBox) : List DrawCmd :=
  if b.coordinates.length < 2 then []
  else
    [DrawCmd.poly b.coordinates (getObjectColor i).1 3,
     DrawCmd.labelBox (centroidX b.coordinates - textWidth b.object_id / 2 - 6)
       (centroidY b.coordinates - 20) (textWidth b.object_id + 2 * 6) 22
       (getObjectColor i).2.2,
     DrawCmd.labelText b.object_id (centroidX b.coordinates - textWidth b.object_id / 2)
       (centroidY b.coordinates - 6) "#000000"]

/-- `handleDownloadWithOverlays`: allocates the export canvas at the
image's NATIVE resolution and draws the image at the origin followed by
every box's overlay.  The live transform state is in scope in the
component but never read — it is threaded here as an explicit argument
to state that independence. -/
def exportRender (t : Transform) (imgW imgH : ℚ) (boxes : List BoundingBox)
    (textWidth : String → ℚ) : (ℚ × ℚ) × List DrawCmd :=
  ((imgW, imgH),
   DrawCmd.image imgW imgH ::
     (boxes.enum.map (fun ib => exportBoxCmds textWidth ib.1 ib.2)).flatten)

/-- C9: the export output — surface dimensions and the full command list —
is identical for any two live transform states (any scale, any
translate), and the export surface has the image's native resolution. -/
theorem exportRender_transform_independent (t1 t2 : Transform) (imgW imgH : ℚ)
    (boxes : List BoundingBox) (textWidth : String → ℚ) :
    exportRender t1 imgW imgH boxes textWidth =
      exportRender t2 imgW imgH boxes textWidth ∧
    (exportRender t1 imgW imgH boxes textWidth).1 = (imgW, imgH) :=
  ⟨rfl, rfl⟩

end Drishti
